import Mathlib

/-!
Shallow embedding of the HTS classification backend:
  * `retrieveHTSCodes`   — backend/utils/retrieval.js (candidate retrieval SQL)
  * `classifyHandler`    — routes/classify.routes.js (pipeline orchestrator)
  * `generateEmbeddings` — the embedding backfill job

The external collaborators (pgvector distance operator, HuggingFace
embedding service, Groq LLM) are parameters of the model: the distance of a
stored embedding to the query embedding is an arbitrary function
`dist : List ℚ → ℚ`, the embedding service is `embed : String → Option (List ℚ)`
(`none` = the call threw), and the two LLM calls are `Except`-valued functions
in the handler environment.
-/

/-- A row of the `tariff_codes` table.  `htsno` and `embedding` are nullable
(`htsno IS NOT NULL` / `embedding IS NOT NULL` filters appear in the SQL);
`general` and `special` are nullable duty-rate text columns. -/
structure TariffRow where
  htsno : Option String
  descript : String
  general : Option String
  special : Option String
  indent : Nat
  embedding : Option (List ℚ)
deriving DecidableEq, Repr

/-- A candidate row as returned by the retrieval query: the selected columns
`htsno as code, descript as description, general, special, indent,
1 - (embedding <=> $1::vector) as similarity`. -/
structure Candidate where
  code : String
  description : String
  general : Option String
  special : Option String
  indent : Nat
  similarity : ℚ
deriving DecidableEq, Repr

/-- The `WHERE indent <= 2 AND embedding IS NOT NULL AND htsno IS NOT NULL`
filter of the retrieval query. -/
def retrievalEligible (r : TariffRow) : Bool :=
  decide (r.indent ≤ 2) && r.embedding.isSome && r.htsno.isSome

/-- Distance of a row's stored embedding to the query embedding, i.e. the SQL
expression `embedding <=> $1::vector` under the ambient query vector. -/
def rowDist (dist : List ℚ → ℚ) (r : TariffRow) : ℚ :=
  dist (r.embedding.getD [])

/-- The `ORDER BY embedding <=> $1::vector, indent DESC` comparison:
smaller distance first, and on equal distance larger indent first. -/
def rowLe (dist : List ℚ → ℚ) (a b : TariffRow) : Bool :=
  decide (rowDist dist a < rowDist dist b) ||
    (decide (rowDist dist a = rowDist dist b) && decide (b.indent ≤ a.indent))

/-- Projection of a tariff row to the candidate row the query returns for it,
with `similarity = 1 - (embedding <=> $1::vector)`. -/
def mkCandidate (dist : List ℚ → ℚ) (r : TariffRow) : Candidate :=
  { code := r.htsno.getD ""
    description := r.descript
    general := r.general
    special := r.special
    indent := r.indent
    similarity := 1 - rowDist dist r }

/-- `retrieveHTSCodes` of backend/utils/retrieval.js: the rows of

    SELECT htsno as code, descript as description, general, special, indent,
           1 - (embedding <=> $1::vector) as similarity
    FROM tariff_codes
    WHERE indent <= 2 AND embedding IS NOT NULL AND htsno IS NOT NULL
    ORDER BY embedding <=> $1::vector, indent DESC
    LIMIT $2

where `dist` is the cosine-distance `<=>` against the query embedding of the
description, `rows` is the table contents and `k` the LIMIT argument. -/
def retrieveHTSCodes (dist : List ℚ → ℚ) (rows : List TariffRow) (k : Nat) :
    List Candidate :=
  ((((rows.filter retrievalEligible).mergeSort (rowLe dist)).take k).map
    (mkCandidate dist))

/-- The candidate ordering claimed by the spec: similarity strictly greater
first, and on exactly equal similarity, indent greater-or-equal first. -/
def candOrdered (c1 c2 : Candidate) : Prop :=
  c2.similarity < c1.similarity ∨
    (c1.similarity = c2.similarity ∧ c2.indent ≤ c1.indent)

theorem rowLe_trans (dist : List ℚ → ℚ) (a b c : TariffRow) :
    rowLe dist a b → rowLe dist b c → rowLe dist a c := by
  simp only [rowLe, Bool.or_eq_true, Bool.and_eq_true, decide_eq_true_eq]
  rintro (hab | ⟨hab, iab⟩) (hbc | ⟨hbc, ibc⟩)
  · exact Or.inl (lt_trans hab hbc)
  · exact Or.inl (hbc ▸ hab)
  · exact Or.inl (hab ▸ hbc)
  · exact Or.inr ⟨hab.trans hbc, le_trans ibc iab⟩

theorem rowLe_total (dist : List ℚ → ℚ) (a b : TariffRow) :
    rowLe dist a b || rowLe dist b a := by
  simp only [rowLe, Bool.or_eq_true, Bool.and_eq_true, decide_eq_true_eq]
  rcases lt_trichotomy (rowDist dist a) (rowDist dist b) with h | h | h
  · exact Or.inl (Or.inl h)
  · rcases Nat.le_total b.indent a.indent with hi | hi
    · exact Or.inl (Or.inr ⟨h, hi⟩)
    · exact Or.inr (Or.inr ⟨h.symm, hi⟩)
  · exact Or.inr (Or.inl h)

theorem rowLe_imp_candOrdered (dist : List ℚ → ℚ) (a b : TariffRow) :
    rowLe dist a b → candOrdered (mkCandidate dist a) (mkCandidate dist b) := by
  simp only [rowLe, Bool.or_eq_true, Bool.and_eq_true, decide_eq_true_eq,
    candOrdered, mkCandidate]
  rintro (h | ⟨h, hi⟩)
  · exact Or.inl (by linarith)
  · exact Or.inr ⟨by rw [h], hi⟩

/-- Every returned candidate is the projection of an eligible source row. -/
theorem mem_retrieveHTSCodes (dist : List ℚ → ℚ) (rows : List TariffRow)
    (k : Nat) (c : Candidate) (hc : c ∈ retrieveHTSCodes dist rows k) :
    ∃ r ∈ rows, r.indent ≤ 2 ∧ r.embedding.isSome ∧ r.htsno.isSome ∧
      c = mkCandidate dist r := by
  simp only [retrieveHTSCodes, List.mem_map] at hc
  obtain ⟨r, hr, rfl⟩ := hc
  have hr2 : r ∈ (rows.filter retrievalEligible).mergeSort (rowLe dist) :=
    (List.take_subset _ _) hr
  rw [List.mem_mergeSort] at hr2
  rw [List.mem_filter] at hr2
  obtain ⟨hmem, helig⟩ := hr2
  simp only [retrievalEligible, Bool.and_eq_true, decide_eq_true_eq] at helig
  exact ⟨r, hmem, helig.1.1, helig.1.2, helig.2, rfl⟩

theorem retrieveHTSCodes_length_le (dist : List ℚ → ℚ)
    (rows : List TariffRow) (k : Nat) :
    (retrieveHTSCodes dist rows k).length ≤ k := by
  simp only [retrieveHTSCodes, List.length_map]
  exact le_trans (List.length_take_le _ _) le_rfl

theorem retrieveHTSCodes_sorted (dist : List ℚ → ℚ)
    (rows : List TariffRow) (k : Nat) :
    (retrieveHTSCodes dist rows k).Pairwise candOrdered := by
  have hs : ((rows.filter retrievalEligible).mergeSort (rowLe dist)).Pairwise
      (fun a b => rowLe dist a b) :=
    List.sorted_mergeSort (rowLe_trans dist) (rowLe_total dist) _
  have ht : (((rows.filter retrievalEligible).mergeSort (rowLe dist)).take
      k).Pairwise (fun a b => rowLe dist a b) :=
    hs.sublist (List.take_sublist _ _)
  rw [retrieveHTSCodes, List.pairwise_map]
  exact ht.imp (fun h => rowLe_imp_candOrdered dist _ _ (by simpa using h))

/-- Claim C1: for every distance function (query embedding), table contents
and `k`, retrieval returns at most `k` candidates, pairwise ordered by
similarity descending with ties broken by indent descending, and every
returned candidate is the projection of a source row with `indent ≤ 2`,
non-null embedding and non-null code. -/
theorem retrieval_at_most_k_sorted_eligible (dist : List ℚ → ℚ)
    (rows : List TariffRow) (k : Nat) :
    (retrieveHTSCodes dist rows k).length ≤ k ∧
    (retrieveHTSCodes dist rows k).Pairwise candOrdered ∧
    ∀ c ∈ retrieveHTSCodes dist rows k, ∃ r ∈ rows,
      r.indent ≤ 2 ∧ r.embedding.isSome ∧ r.htsno.isSome ∧
        c = mkCandidate dist r :=
  ⟨retrieveHTSCodes_length_le dist rows k,
   retrieveHTSCodes_sorted dist rows k,
   fun c hc => mem_retrieveHTSCodes dist rows k c hc⟩

/-! ## Pipeline orchestrator — routes/classify.routes.js -/

/-- The structured-output schema of the classifier LLM call
(`classificationSchema` in classify.routes.js). -/
structure Classification where
  hts_code : String
  hts_code_description : String
  confidence : ℚ
  chapter : String
  chapter_description : String
  heading : String
  heading_description : String
  subheading : String
  subheading_description : String
  reasoning_brief : String
  alternative_codes : List String
deriving DecidableEq, Repr

/-- The request body `{product_description, country_of_origin}`; either field
may be absent. -/
structure RequestBody where
  product_description : Option String
  country_of_origin : Option String
deriving DecidableEq, Repr

/-- ASCII whitespace as stripped by JS `String.prototype.trim` (which also
strips the rarer unicode space characters, not modelled here). -/
def isWS (c : Char) : Bool :=
  c = ' ' || c = '\t' || c = '\n' || c = '\r'

/-- JS `s.trim()`: strip leading and trailing whitespace. -/
def strTrim (s : String) : String :=
  String.mk (((s.data.dropWhile isWS).reverse.dropWhile isWS).reverse)

/-- `(c.similarity * 100).toFixed(1)` then `parseFloat`: the value rounded to
one decimal place. -/
def toFixed1 (x : ℚ) : ℚ := (round (x * 10) : ℤ) / 10

/-- One element of the response's `retrieved_candidates` array. -/
structure ReportedCandidate where
  code : String
  description : String
  similarity : ℚ
deriving DecidableEq, Repr

/-- `candidates.map(c => ({code, description, similarity: parseFloat((c.similarity * 100).toFixed(1))}))`. -/
def reportCandidate (c : Candidate) : ReportedCandidate :=
  { code := c.code, description := c.description
    similarity := toFixed1 (c.similarity * 100) }

/-- A `{code, description}` level of the response's `structure` object. -/
structure LevelInfo where
  code : String
  description : String
deriving DecidableEq, Repr

/-- The `classification.structure` object of the response. -/
structure StructureInfo where
  chapter : LevelInfo
  heading : LevelInfo
  subheading : LevelInfo
deriving DecidableEq, Repr

/-- The `classification` object of the response. -/
structure ClassificationOut where
  hts_code : String
  description : String
  confidence : ℚ
  hts_structure : StructureInfo
  alternatives_considered : List String
deriving DecidableEq, Repr

/-- The `metadata` object of the response. -/
structure Metadata where
  rag_enabled : Bool
  langchain_version : String
  retrieval_count : Nat
deriving DecidableEq, Repr

/-- The success response body assembled in step 4 of the route handler. -/
structure SuccessBundle where
  classification : ClassificationOut
  justification : String
  retrieved_candidates : List ReportedCandidate
  metadata : Metadata
deriving DecidableEq, Repr

/-- The four response outcomes of the route: 400, 404, 500 and 200. -/
inductive Response where
  | badRequest (error : String)
  | notFound (error message : String)
  | serverError (error details : String)
  | ok (bundle : SuccessBundle)
deriving DecidableEq, Repr

/-- External calls issued while serving one request.  `retrievalCall` covers
`retrieveHTSCodes` (which itself embeds the query and queries the store);
`classifyCall` and `justifyCall` are the two LLM invocations. -/
inductive CallEvent where
  | retrievalCall (description : String)
  | classifyCall
  | justifyCall
deriving DecidableEq, Repr

/-- The handler's environment: the retrieval function and the two LLM chains.
`Except.error` models a thrown exception carrying `err.message`. -/
structure Env where
  retrieve : String → Nat → Except String (List Candidate)
  classify : String → String → List Candidate → Except String Classification
  justify : String → Classification → Except String String

/-- Step 4 of the handler: the response JSON built from the classification,
the justification text and the retrieved candidate list. -/
def buildBundle (cls : Classification) (justification : String)
    (candidates : List Candidate) : SuccessBundle :=
  { classification :=
      { hts_code := cls.hts_code
        description := cls.hts_code_description
        confidence := cls.confidence
        hts_structure :=
          { chapter := ⟨cls.chapter, cls.chapter_description⟩
            heading := ⟨cls.heading, cls.heading_description⟩
            subheading := ⟨cls.subheading, cls.subheading_description⟩ }
        alternatives_considered := cls.alternative_codes }
    justification := justification
    retrieved_candidates := candidates.map reportCandidate
    metadata := { rag_enabled := true, langchain_version := "0.3.x"
                  retrieval_count := candidates.length } }

/-- `router.post("/")` of classify.routes.js, with the list of external calls
it issued.  Mirrors the control flow: destructure the body (defaulting
`country_of_origin` to "Unknown"), reject a missing or blank
`product_description` with 400, retrieve 5 candidates, return 404 on an empty
candidate list, run the classification chain, run the justification chain,
and answer 200 with the assembled bundle; any thrown error answers 500 with
`{error: "classification_failed", details: err.message}`. -/
def classifyHandler (env : Env) (body : Option RequestBody) :
    Response × List CallEvent :=
  let b := body.getD { product_description := none, country_of_origin := none }
  let coo := b.country_of_origin.getD "Unknown"
  match b.product_description with
  | none => (.badRequest "product_description is required", [])
  | some pd =>
    if strTrim pd = "" then (.badRequest "product_description is required", [])
    else
      match env.retrieve pd 5 with
      | .error e => (.serverError "classification_failed" e, [.retrievalCall pd])
      | .ok candidates =>
        if candidates.length = 0 then
          (.notFound "no_candidates_found" "No HTS codes found in database",
           [.retrievalCall pd])
        else
          match env.classify pd coo candidates with
          | .error e =>
              (.serverError "classification_failed" e,
               [.retrievalCall pd, .classifyCall])
          | .ok cls =>
            match env.justify pd cls with
            | .error e =>
                (.serverError "classification_failed" e,
                 [.retrievalCall pd, .classifyCall, .justifyCall])
            | .ok justification =>
                (.ok (buildBundle cls justification candidates),
                 [.retrievalCall pd, .classifyCall, .justifyCall])

/-- An environment in which every external call throws; used to exhibit that
rejected requests issue no calls. -/
def envStub : Env :=
  { retrieve := fun _ _ => .error "unreachable"
    classify := fun _ _ _ => .error "unreachable"
    justify := fun _ _ => .error "unreachable" }

/-- Claim C3: a request whose `product_description` is missing (or whose body
is missing) or trims to the empty string is answered with the 400 validation
failure, and the call log is empty: no retrieval, hence no query-embedding
call, and no LLM call is issued. -/
theorem blank_description_rejected_without_calls (env : Env)
    (body : Option RequestBody)
    (h : body = none ∨ ∃ b, body = some b ∧
      (b.product_description = none ∨
        ∃ pd, b.product_description = some pd ∧ strTrim pd = "")) :
    classifyHandler env body =
      (.badRequest "product_description is required", []) := by
  rcases h with rfl | ⟨b, rfl, hb⟩
  · rfl
  · rcases hb with hnone | ⟨pd, hpd, htrim⟩
    · simp [classifyHandler, hnone]
    · simp [classifyHandler, hpd, htrim]

theorem blank_description_rejected_without_calls_witness :
    classifyHandler envStub
        (some { product_description := some "   ", country_of_origin := none }) =
      (.badRequest "product_description is required", []) :=
  blank_description_rejected_without_calls envStub _
    (Or.inr ⟨_, rfl, Or.inr ⟨"   ", rfl, by decide⟩⟩)

/-- Claim C4: when retrieval succeeds with zero candidates, the handler
answers the distinct 404 no-candidates outcome, and the call log contains
only the retrieval call: the classifier and the justification synthesizer are
never invoked. -/
theorem no_candidates_terminal_without_llm (env : Env) (b : RequestBody)
    (pd : String) (hpd : b.product_description = some pd)
    (htrim : strTrim pd ≠ "") (hret : env.retrieve pd 5 = .ok []) :
    classifyHandler env (some b) =
      (.notFound "no_candidates_found" "No HTS codes found in database",
       [.retrievalCall pd]) := by
  simp [classifyHandler, hpd, htrim, hret]

/-- An environment whose store holds no embedded rows: retrieval always
succeeds with the empty candidate list. -/
def envEmptyStore : Env :=
  { retrieve := fun _ _ => .ok []
    classify := fun _ _ _ => .error "unreachable"
    justify := fun _ _ => .error "unreachable" }

theorem no_candidates_terminal_without_llm_witness :
    classifyHandler envEmptyStore
        (some { product_description := some "stainless steel kitchen sink"
                country_of_origin := some "China" }) =
      (.notFound "no_candidates_found" "No HTS codes found in database",
       [.retrievalCall "stainless steel kitchen sink"]) :=
  no_candidates_terminal_without_llm envEmptyStore _
    "stainless steel kitchen sink" rfl (by decide) rfl

/-- Claim C5: every stage error is propagated as the generic 500 failure
carrying the underlying cause message (retrieval error, classifier error, and
synthesizer error alike), and a success response exists only when retrieval,
classification and justification all succeeded — the bundle is assembled from
all three, so no partial result (in particular no classification without a
justification) is ever returned. -/
theorem stage_error_propagates_and_no_partial_result (env : Env)
    (b : RequestBody) (pd : String) (hpd : b.product_description = some pd)
    (htrim : strTrim pd ≠ "") :
    (∀ e, env.retrieve pd 5 = .error e →
      (classifyHandler env (some b)).1 = .serverError "classification_failed" e) ∧
    (∀ cands e, env.retrieve pd 5 = .ok cands → cands ≠ [] →
      env.classify pd (b.country_of_origin.getD "Unknown") cands = .error e →
      (classifyHandler env (some b)).1 = .serverError "classification_failed" e) ∧
    (∀ cands cls e, env.retrieve pd 5 = .ok cands → cands ≠ [] →
      env.classify pd (b.country_of_origin.getD "Unknown") cands = .ok cls →
      env.justify pd cls = .error e →
      (classifyHandler env (some b)).1 = .serverError "classification_failed" e) ∧
    (∀ bundle, (classifyHandler env (some b)).1 = .ok bundle →
      ∃ cands cls justification, env.retrieve pd 5 = .ok cands ∧ cands ≠ [] ∧
        env.classify pd (b.country_of_origin.getD "Unknown") cands = .ok cls ∧
        env.justify pd cls = .ok justification ∧
        bundle = buildBundle cls justification cands) := by
  refine ⟨?_, ?_, ?_, ?_⟩
  · intro e he
    simp [classifyHandler, hpd, htrim, he]
  · intro cands e hr hne hc
    simp [classifyHandler, hpd, htrim, hr, List.length_eq_zero, hne, hc]
  · intro cands cls e hr hne hc hj
    simp [classifyHandler, hpd, htrim, hr, List.length_eq_zero, hne, hc, hj]
  · intro bundle hb
    cases hr : env.retrieve pd 5 with
    | error e => simp [classifyHandler, hpd, htrim, hr] at hb
    | ok cands =>
      by_cases hne : cands = []
      · subst hne
        simp [classifyHandler, hpd, htrim, hr] at hb
      · cases hc : env.classify pd (b.country_of_origin.getD "Unknown") cands with
        | error e =>
          simp [classifyHandler, hpd, htrim, hr, List.length_eq_zero, hne, hc] at hb
        | ok cls =>
          cases hj : env.justify pd cls with
          | error e =>
            simp [classifyHandler, hpd, htrim, hr, List.length_eq_zero, hne,
              hc, hj] at hb
          | ok justification =>
            refine ⟨cands, cls, justification, rfl, hne, hc, hj, ?_⟩
            simp [classifyHandler, hpd, htrim, hr, List.length_eq_zero, hne,
              hc, hj] at hb
            exact hb.symm

/-- An environment whose store connection fails: retrieval throws. -/
def envStoreDown : Env :=
  { retrieve := fun _ _ => .error "connection refused"
    classify := fun _ _ _ => .error "unreachable"
    justify := fun _ _ => .error "unreachable" }

theorem stage_error_propagates_and_no_partial_result_witness :
    (classifyHandler envStoreDown
        (some { product_description := some "laptop", country_of_origin := none })).1 =
      .serverError "classification_failed" "connection refused" :=
  (stage_error_propagates_and_no_partial_result envStoreDown _ "laptop" rfl
    (by decide)).1 "connection refused" rfl

/-! ## Claim C2 — candidate-set membership of the selected code -/

/-- A single retrieved candidate used in the C2 scenario. -/
def candLive : Candidate :=
  { code := "0101.21", description := "Live purebred breeding horses"
    general := some "Free", special := none, indent := 2, similarity := 9/10 }

/-- An LLM output whose selected code and alternative are not among the
retrieved candidates.  Nothing in the handler prevents this: candidate
membership is requested only inside the prompt text. -/
def clsRogue : Classification :=
  { hts_code := "9999.99.99", hts_code_description := "Not a candidate"
    confidence := 1/2, chapter := "99", chapter_description := "ch"
    heading := "9999", heading_description := "hd"
    subheading := "999999", subheading_description := "sh"
    reasoning_brief := "made up", alternative_codes := ["8888.88"] }

/-- Environment in which the classifier LLM answers with `clsRogue`. -/
def envRogue : Env :=
  { retrieve := fun _ _ => .ok [candLive]
    classify := fun _ _ _ => .ok clsRogue
    justify := fun _ _ => .ok "justification text" }

/-- Claim C2, counterexample: a successful classification response whose
selected `hts_code` and alternative code are not members of the retrieved
candidate set.  The handler forwards the classifier output without any
membership validation, so the claimed invariant fails on adversarial model
output. -/
theorem selected_code_outside_candidates_counterexample :
    (classifyHandler envRogue
        (some { product_description := some "horse", country_of_origin := none })).1 =
      .ok (buildBundle clsRogue "justification text" [candLive]) ∧
    (buildBundle clsRogue "justification text"
        [candLive]).classification.hts_code ∉
      (buildBundle clsRogue "justification text"
        [candLive]).retrieved_candidates.map (fun rc => rc.code) ∧
    ¬ (∀ a ∈ (buildBundle clsRogue "justification text"
        [candLive]).classification.alternatives_considered,
        a ∈ (buildBundle clsRogue "justification text"
          [candLive]).retrieved_candidates.map (fun rc => rc.code)) := by
  refine ⟨rfl, by decide, by decide⟩

/-- Claim C2 (amended): the handler returns the classifier's selected code and
alternatives verbatim and reports the retrieved candidates code-for-code, so
the response's codes are members of the candidate set exactly when the
classifier's output codes are — membership is a prompt-level constraint on
the model, not enforced by the code. -/
theorem success_codes_are_classifier_codes (env : Env) (b : RequestBody)
    (pd : String) (cands : List Candidate) (cls : Classification)
    (justification : String)
    (hpd : b.product_description = some pd) (htrim : strTrim pd ≠ "")
    (hr : env.retrieve pd 5 = .ok cands) (hne : cands ≠ [])
    (hc : env.classify pd (b.country_of_origin.getD "Unknown") cands = .ok cls)
    (hj : env.justify pd cls = .ok justification) :
    ∃ bundle, (classifyHandler env (some b)).1 = .ok bundle ∧
      bundle.classification.hts_code = cls.hts_code ∧
      bundle.classification.alternatives_considered = cls.alternative_codes ∧
      bundle.retrieved_candidates.map (fun rc => rc.code) =
        cands.map (fun c => c.code) ∧
      (cls.hts_code ∈ cands.map (fun c => c.code) →
        bundle.classification.hts_code ∈
          bundle.retrieved_candidates.map (fun rc => rc.code)) ∧
      ((∀ a ∈ cls.alternative_codes, a ∈ cands.map (fun c => c.code)) →
        ∀ a ∈ bundle.classification.alternatives_considered,
          a ∈ bundle.retrieved_candidates.map (fun rc => rc.code)) := by
  refine ⟨buildBundle cls justification cands, ?_, rfl, rfl, ?_, ?_, ?_⟩
  · simp [classifyHandler, hpd, htrim, hr, List.length_eq_zero, hne, hc, hj]
  · simp [buildBundle, reportCandidate]
  · intro hmem
    simpa [buildBundle, reportCandidate] using hmem
  · intro hall a ha
    simpa [buildBundle, reportCandidate] using hall a (by simpa [buildBundle] using ha)

/-- An LLM output that respects the candidate set `[candLive]`. -/
def clsCompliant : Classification :=
  { hts_code := "0101.21", hts_code_description := "Live purebred breeding horses"
    confidence := 9/10, chapter := "01", chapter_description := "Live animals"
    heading := "0101", heading_description := "Live horses"
    subheading := "010121", subheading_description := "Purebred breeding animals"
    reasoning_brief := "direct match", alternative_codes := ["0101.21"] }

/-- Environment in which the classifier LLM answers with `clsCompliant`. -/
def envCompliant : Env :=
  { retrieve := fun _ _ => .ok [candLive]
    classify := fun _ _ _ => .ok clsCompliant
    justify := fun _ _ => .ok "justification text" }

theorem success_codes_are_classifier_codes_witness :
    ∃ bundle,
      (classifyHandler envCompliant
          (some { product_description := some "horse", country_of_origin := none })).1 =
        .ok bundle ∧
      bundle.classification.hts_code = clsCompliant.hts_code ∧
      bundle.classification.alternatives_considered =
        clsCompliant.alternative_codes ∧
      bundle.retrieved_candidates.map (fun rc => rc.code) =
        [candLive].map (fun c => c.code) ∧
      (clsCompliant.hts_code ∈ [candLive].map (fun c => c.code) →
        bundle.classification.hts_code ∈
          bundle.retrieved_candidates.map (fun rc => rc.code)) ∧
      ((∀ a ∈ clsCompliant.alternative_codes,
          a ∈ [candLive].map (fun c => c.code)) →
        ∀ a ∈ bundle.classification.alternatives_considered,
          a ∈ bundle.retrieved_candidates.map (fun rc => rc.code)) :=
  success_codes_are_classifier_codes envCompliant _ "horse" [candLive]
    clsCompliant "justification text" rfl (by decide) rfl (by decide) rfl rfl

/-! ## Claim C6 — reported similarity percentages -/

/-- Dot product of two rational vectors. -/
def dotList : List ℚ → List ℚ → ℚ
  | a :: as, b :: bs => a * b + dotList as bs
  | _, _ => 0

/-- The pgvector cosine-distance operator `q <=> e`, specialised to unit-norm
vectors where it equals `1 - ⟨q, e⟩`.  Its range is `[0, 2]`: opposite unit
vectors are at distance `2`. -/
def cosDistUnit (q e : List ℚ) : ℚ := 1 - dotList q e

/-- A stored row whose (unit-norm) embedding points opposite to the query
embedding `[1, 0]`, so its cosine distance to the query is `2` and the
computed similarity `1 - 2 = -1`. -/
def rowOpposite : TariffRow :=
  { htsno := some "0101", descript := "Live animals"
    general := none, special := none, indent := 0
    embedding := some [-1, 0] }

/-- The candidate the retrieval query returns for `rowOpposite`. -/
def candNeg : Candidate :=
  { code := "0101", description := "Live animals"
    general := none, special := none, indent := 0, similarity := -1 }

theorem mkCandidate_rowOpposite_eval :
    mkCandidate (cosDistUnit [1, 0]) rowOpposite = candNeg := by
  simp only [mkCandidate, rowOpposite, candNeg, rowDist, cosDistUnit,
    Option.getD_some, Candidate.mk.injEq]
  norm_num [dotList]

theorem retrieveHTSCodes_rowOpposite_eval :
    retrieveHTSCodes (cosDistUnit [1, 0]) [rowOpposite] 5 = [candNeg] := by
  have helig : retrievalEligible rowOpposite = true := by decide
  rw [retrieveHTSCodes, List.filter_cons_of_pos helig, List.filter_nil,
    List.mergeSort_singleton, List.take_of_length_le (by simp)]
  simp [mkCandidate_rowOpposite_eval]

theorem reportCandidate_candNeg : reportCandidate candNeg =
    { code := "0101", description := "Live animals", similarity := -100 } := by
  have h1 : ((-1 : ℚ) * 100) * 10 = ((-1000 : ℤ) : ℚ) := by norm_num
  simp only [reportCandidate, candNeg, toFixed1, h1, round_intCast,
    ReportedCandidate.mk.injEq]
  norm_num

/-- Environment backed by a store holding only `rowOpposite`, with a
cooperating LLM. -/
def envNegSim : Env :=
  { retrieve := fun _ k => .ok (retrieveHTSCodes (cosDistUnit [1, 0]) [rowOpposite] k)
    classify := fun _ _ _ => .ok clsCompliant
    justify := fun _ _ => .ok "justification text" }

/-- Claim C6, counterexample: a success bundle whose reported similarity is
`-100`, outside `[0, 100]`.  The similarity `1 - (embedding <=> query)` of a
cosine distance greater than `1` is negative, and the handler reports it
scaled to a percentage with no clamping. -/
theorem reported_similarity_out_of_range_counterexample :
    (classifyHandler envNegSim
        (some { product_description := some "anything", country_of_origin := none })).1 =
      .ok (buildBundle clsCompliant "justification text" [candNeg]) ∧
    (buildBundle clsCompliant "justification text"
        [candNeg]).retrieved_candidates.map (fun rc => rc.similarity) =
      [(-100 : ℚ)] ∧
    ¬ ((0 : ℚ) ≤ -100) := by
  have htrim : ¬ (strTrim "anything" = "") := by decide
  refine ⟨?_, ?_, by norm_num⟩
  · simp [classifyHandler, envNegSim, htrim, retrieveHTSCodes_rowOpposite_eval]
  · simp [buildBundle, reportCandidate_candNeg]

theorem round_rat_mono {a b : ℚ} (h : a ≤ b) : round a ≤ round b := by
  rw [round_eq, round_eq]
  exact Int.floor_mono (by linarith)

theorem toFixed1_bounds {x : ℚ} (h1 : -100 ≤ x) (h2 : x ≤ 100) :
    -100 ≤ toFixed1 x ∧ toFixed1 x ≤ 100 := by
  have hlo : (-1000 : ℤ) ≤ round (x * 10) := by
    have h0 : round ((-1000 : ℤ) : ℚ) ≤ round (x * 10) :=
      round_rat_mono (by push_cast; linarith)
    rwa [round_intCast] at h0
  have hhi : round (x * 10) ≤ (1000 : ℤ) := by
    have h0 : round (x * 10) ≤ round ((1000 : ℤ) : ℚ) :=
      round_rat_mono (by push_cast; linarith)
    rwa [round_intCast] at h0
  have hlo2 : ((-1000 : ℤ) : ℚ) ≤ ((round (x * 10) : ℤ) : ℚ) := by
    exact_mod_cast hlo
  have hhi2 : ((round (x * 10) : ℤ) : ℚ) ≤ ((1000 : ℤ) : ℚ) := by
    exact_mod_cast hhi
  constructor
  · rw [toFixed1]
    push_cast at hlo2 ⊢
    linarith
  · rw [toFixed1]
    push_cast at hhi2 ⊢
    linarith

/-- Claim C6 (amended): in every success bundle served over a store whose
cosine distances lie in the operator's range `[0, 2]`, each reported
similarity is the candidate's similarity expressed as a percentage rounded to
one decimal place, and lies in `[-100, 100]` — not `[0, 100]`: a distance
above `1` yields a negative reported percentage, since the handler applies no
clamping. -/
theorem reported_similarity_rounded_percentage_bounded (dist : List ℚ → ℚ)
    (rows : List TariffRow) (env : Env) (b : RequestBody)
    (bundle : SuccessBundle)
    (hretr : env.retrieve = fun _ k => .ok (retrieveHTSCodes dist rows k))
    (hd : ∀ r ∈ rows, 0 ≤ rowDist dist r ∧ rowDist dist r ≤ 2)
    (hok : (classifyHandler env (some b)).1 = .ok bundle) :
    ∀ rc ∈ bundle.retrieved_candidates,
      (∃ c ∈ retrieveHTSCodes dist rows 5,
        rc = reportCandidate c ∧ rc.similarity = toFixed1 (c.similarity * 100)) ∧
      -100 ≤ rc.similarity ∧ rc.similarity ≤ 100 := by
  rcases hb : b.product_description with _ | pd
  · simp [classifyHandler, hb] at hok
  · by_cases htrim : strTrim pd = ""
    · simp [classifyHandler, hb, htrim] at hok
    · have hr : env.retrieve pd 5 = .ok (retrieveHTSCodes dist rows 5) := by
        rw [hretr]
      by_cases hne : retrieveHTSCodes dist rows 5 = []
      · simp [classifyHandler, hb, htrim, hr, hne] at hok
      · cases hc : env.classify pd (b.country_of_origin.getD "Unknown")
            (retrieveHTSCodes dist rows 5) with
        | error e =>
          simp [classifyHandler, hb, htrim, hr, List.length_eq_zero, hne,
            hc] at hok
        | ok cls =>
          cases hj : env.justify pd cls with
          | error e =>
            simp [classifyHandler, hb, htrim, hr, List.length_eq_zero, hne,
              hc, hj] at hok
          | ok justification =>
            have hbundle :
                bundle = buildBundle cls justification (retrieveHTSCodes dist rows 5) := by
              simp [classifyHandler, hb, htrim, hr, List.length_eq_zero, hne,
                hc, hj] at hok
              exact hok.symm
            subst hbundle
            intro rc hrc
            simp only [buildBundle, List.mem_map] at hrc
            obtain ⟨c, hcmem, rfl⟩ := hrc
            refine ⟨⟨c, hcmem, rfl, rfl⟩, ?_⟩
            obtain ⟨r, hrmem, _, _, _, rfl⟩ :=
              mem_retrieveHTSCodes dist rows 5 c hcmem
            obtain ⟨hd0, hd2⟩ := hd r hrmem
            have hsim : -100 ≤ (mkCandidate dist r).similarity * 100 ∧
                (mkCandidate dist r).similarity * 100 ≤ 100 := by
              simp only [mkCandidate]
              constructor <;> nlinarith
            exact toFixed1_bounds hsim.1 hsim.2

theorem reported_similarity_rounded_percentage_bounded_witness :
    (∃ c ∈ retrieveHTSCodes (cosDistUnit [1, 0]) [rowOpposite] 5,
      reportCandidate candNeg = reportCandidate c ∧
      (reportCandidate candNeg).similarity = toFixed1 (c.similarity * 100)) ∧
    -100 ≤ (reportCandidate candNeg).similarity ∧
    (reportCandidate candNeg).similarity ≤ 100 :=
  reported_similarity_rounded_percentage_bounded (cosDistUnit [1, 0])
    [rowOpposite] envNegSim
    { product_description := some "anything", country_of_origin := none }
    (buildBundle clsCompliant "justification text" [candNeg]) rfl
    (by
      intro r hr
      rw [List.mem_singleton] at hr
      subst hr
      constructor <;> norm_num [rowDist, rowOpposite, cosDistUnit, dotList])
    (by
      have htrim : ¬ (strTrim "anything" = "") := by decide
      simp [classifyHandler, envNegSim, htrim, retrieveHTSCodes_rowOpposite_eval])
    (reportCandidate candNeg) (by simp [buildBundle])

/-! ## Embedding backfill job — `generateEmbeddings` -/

/-- The `SELECT DISTINCT ON (htsno, descript, indent)` projection of a batch
row.  The select filters `htsno IS NOT NULL`, so `htsno` is a plain string
here. -/
structure BatchKey where
  htsno : String
  descript : String
  indent : Nat
deriving DecidableEq, Repr

/-- `BATCH_SIZE = 10`. -/
def BATCH_SIZE : Nat := 10

/-- The batch query's `WHERE indent <= 2 AND embedding IS NULL AND htsno IS
NOT NULL` filter. -/
def eligibleForEmbedding (r : TariffRow) : Bool :=
  decide (r.indent ≤ 2) && r.embedding.isNone && r.htsno.isSome

/-- Projection of a row to its `(htsno, descript, indent)` batch key. -/
def rowKey (r : TariffRow) : BatchKey :=
  { htsno := r.htsno.getD "", descript := r.descript, indent := r.indent }

/-- The `ORDER BY htsno, descript, indent` comparison on batch keys. -/
def keyLe (a b : BatchKey) : Bool :=
  decide (a.htsno < b.htsno) ||
    (decide (a.htsno = b.htsno) &&
      (decide (a.descript < b.descript) ||
        (decide (a.descript = b.descript) && decide (a.indent ≤ b.indent))))

/-- The per-iteration batch query: distinct `(htsno, descript, indent)` keys
of eligible rows, ordered by the keys, limited to `limit` rows. -/
def selectBatch (store : List TariffRow) (limit : Nat) : List BatchKey :=
  ((((store.filter eligibleForEmbedding).map rowKey).dedup).mergeSort
    keyLe).take limit

/-- The initial `COUNT(*)` query: `WHERE indent <= 2 AND embedding IS NULL`
(note: no `htsno IS NOT NULL` here, unlike the batch select). -/
def countUnembedded (store : List TariffRow) : Nat :=
  (store.filter (fun r => decide (r.indent ≤ 2) && r.embedding.isNone)).length

/-- The embedding input text: a terser template at indent 0, a richer one for
deeper codes. -/
def textToEmbed (k : BatchKey) : String :=
  if k.indent = 0 then "HTS " ++ k.htsno ++ ": " ++ k.descript
  else "HTS Code " ++ k.htsno ++ " - " ++ k.descript

/-- `UPDATE tariff_codes SET embedding = $1 WHERE htsno = $2`: write the
vector to every row whose `htsno` equals the key's code. -/
def updateEmbedding (store : List TariffRow) (code : String) (v : List ℚ) :
    List TariffRow :=
  store.map (fun r => if r.htsno = some code then { r with embedding := some v } else r)

/-- Job state: current table contents, the `processed` counter, and logs of
the embedding-model calls and the row updates issued so far. -/
structure JobState where
  store : List TariffRow
  processed : Nat
  embedCalls : List String
  updates : List (String × List ℚ)
deriving DecidableEq, Repr

/-- The per-row body of the batch loop: call the embedding model, then issue
the update; a failure of either (the row's try/catch) is logged and leaves
the state otherwise unchanged.  `embed t = none` models a failed embedding
call, `updateFails c = true` a failed update query. -/
def processRow (embed : String → Option (List ℚ)) (updateFails : String → Bool)
    (s : JobState) (k : BatchKey) : JobState :=
  let text := textToEmbed k
  let s1 := { s with embedCalls := s.embedCalls ++ [text] }
  match embed text with
  | none => s1
  | some v =>
    if updateFails k.htsno then s1
    else { s1 with store := updateEmbedding s1.store k.htsno v
                   processed := s1.processed + 1
                   updates := s1.updates ++ [(k.htsno, v)] }

/-- The `for (const row of result.rows)` loop over one batch. -/
def processBatch (embed : String → Option (List ℚ))
    (updateFails : String → Bool) (s : JobState) (batch : List BatchKey) :
    JobState :=
  batch.foldl (processRow embed updateFails) s

/-- The `while (processed < totalRows)` loop, fuelled: `none` means the fuel
ran out before the loop reached an exit (`break` on an empty batch, or the
loop condition turning false). -/
def jobLoop (embed : String → Option (List ℚ)) (updateFails : String → Bool)
    (totalRows : Nat) : Nat → JobState → Option JobState
  | 0, s =>
    if s.processed < totalRows then
      if (selectBatch s.store BATCH_SIZE).isEmpty then some s else none
    else some s
  | fuel + 1, s =>
    if s.processed < totalRows then
      if (selectBatch s.store BATCH_SIZE).isEmpty then some s
      else jobLoop embed updateFails totalRows fuel
        (processBatch embed updateFails s (selectBatch s.store BATCH_SIZE))
    else some s

/-- The job's starting state over a given table. -/
def initialJobState (store : List TariffRow) : JobState :=
  { store := store, processed := 0, embedCalls := [], updates := [] }

/-- `generateEmbeddings`: count the unembedded rows, then run the batch loop. -/
def generateEmbeddings (embed : String → Option (List ℚ))
    (updateFails : String → Bool) (store : List TariffRow) (fuel : Nat) :
    Option JobState :=
  jobLoop embed updateFails (countUnembedded store) fuel (initialJobState store)

/-- Claim C8: for every batch and every pattern of per-row embedding or
update failures, the batch loop issues exactly one embedding call per row of
the batch — a row's failure is caught and the remaining rows are still
processed, so one failure never aborts the batch. -/
theorem row_failure_never_aborts_batch (embed : String → Option (List ℚ))
    (updateFails : String → Bool) (s : JobState) (batch : List BatchKey) :
    (processBatch embed updateFails s batch).embedCalls =
      s.embedCalls ++ batch.map textToEmbed := by
  induction batch generalizing s with
  | nil => simp [processBatch]
  | cons k ks ih =>
    have hrow : (processRow embed updateFails s k).embedCalls =
        s.embedCalls ++ [textToEmbed k] := by
      simp only [processRow]
      cases embed (textToEmbed k) with
      | none => rfl
      | some v =>
        by_cases h : updateFails k.htsno <;> simp [h]
    simp only [processBatch, List.foldl_cons, List.map_cons] at ih ⊢
    rw [ih, hrow, List.append_assoc, List.singleton_append]

/-- Claim C9: if every eligible row (indent ≤ 2, non-null code) already has
an embedding, the job exits with the store unchanged, zero embedding-model
calls and zero updates — re-running it is a no-op.  (Rows with a null code
may still be counted by the initial `COUNT(*)`, but the batch select filters
them out, so the loop still exits on its first iteration.) -/
theorem backfill_noop_when_all_embedded (embed : String → Option (List ℚ))
    (updateFails : String → Bool) (store : List TariffRow) (fuel : Nat)
    (h : ∀ r ∈ store, r.indent ≤ 2 → r.htsno.isSome → r.embedding.isSome) :
    ∃ s, generateEmbeddings embed updateFails store fuel = some s ∧
      s.embedCalls = [] ∧ s.updates = [] ∧ s.store = store := by
  have hfilter : store.filter eligibleForEmbedding = [] := by
    rw [List.filter_eq_nil_iff]
    intro r hr hcontra
    simp only [eligibleForEmbedding, Bool.and_eq_true, decide_eq_true_eq]
      at hcontra
    obtain ⟨⟨hind, hnone⟩, hsome⟩ := hcontra
    have := h r hr hind hsome
    rw [Option.isNone_iff_eq_none] at hnone
    rw [hnone] at this
    simp at this
  have hsel : selectBatch store BATCH_SIZE = [] := by
    simp [selectBatch, hfilter]
  refine ⟨initialJobState store, ?_, rfl, rfl, rfl⟩
  rw [generateEmbeddings]
  cases fuel with
  | zero =>
    simp [jobLoop, initialJobState, hsel]
  | succ n =>
    simp [jobLoop, initialJobState, hsel]

/-- A one-row store whose only row is already embedded. -/
def storeAllEmbedded : List TariffRow :=
  [{ htsno := some "0101", descript := "Live animals", general := some "Free"
     special := none, indent := 0, embedding := some [1] }]

theorem backfill_noop_when_all_embedded_witness :
    ∃ s, generateEmbeddings (fun _ => none) (fun _ => false)
        storeAllEmbedded 3 = some s ∧
      s.embedCalls = [] ∧ s.updates = [] ∧ s.store = storeAllEmbedded :=
  backfill_noop_when_all_embedded (fun _ => none) (fun _ => false)
    storeAllEmbedded 3
    (by intro r hr; simp only [storeAllEmbedded, List.mem_singleton] at hr
        subst hr; intros; rfl)

/-- A single eligible row (indent 0, null embedding, non-null code) whose
embedding call will fail on every attempt. -/
def rowFailing : TariffRow :=
  { htsno := some "0101", descript := "Live animals", general := none
    special := none, indent := 0, embedding := none }

theorem selectBatch_rowFailing_eval :
    selectBatch [rowFailing] BATCH_SIZE =
      [{ htsno := "0101", descript := "Live animals", indent := 0 }] := by
  have helig : eligibleForEmbedding rowFailing = true := by decide
  rw [selectBatch, List.filter_cons_of_pos helig, List.filter_nil]
  simp [rowKey, rowFailing, List.dedup_cons_of_not_mem, BATCH_SIZE]

theorem jobLoop_stuck_on_rowFailing (fuel : Nat) (calls : List String) :
    jobLoop (fun _ => none) (fun _ => false) 1 fuel
      { store := [rowFailing], processed := 0, embedCalls := calls
        updates := [] } = none := by
  induction fuel generalizing calls with
  | zero =>
    simp [jobLoop, selectBatch_rowFailing_eval]
  | succ n ih =>
    simp only [jobLoop, selectBatch_rowFailing_eval]
    simp only [processBatch, List.foldl_cons, List.foldl_nil, processRow]
    exact ih _

/-- Claim C7 at the failing input: over a store holding one eligible row
whose embedding call always fails, the `while (processed < totalRows)` loop
never terminates — `processed` stays `0 < totalRows = 1`, the batch select
keeps returning the same row, and the per-row catch swallows each failure,
so no fuel bound suffices.  The claimed termination under persistent per-row
failure does not hold of the code. -/
theorem backfill_diverges_on_persistent_failure (fuel : Nat) :
    generateEmbeddings (fun _ => none) (fun _ => false) [rowFailing] fuel =
      none := by
  have hcount : countUnembedded [rowFailing] = 1 := by decide
  rw [generateEmbeddings, hcount]
  exact jobLoop_stuck_on_rowFailing fuel []

theorem updateEmbedding_pointwise (store : List TariffRow) (code : String)
    (v : List ℚ) :
    ∀ p ∈ (updateEmbedding store code v).zip store,
      (p.2.htsno = some code → p.1 = { p.2 with embedding := some v }) ∧
      (p.2.htsno ≠ some code → p.1 = p.2) := by
  induction store with
  | nil => intro p hp; simp [updateEmbedding] at hp
  | cons a l ih =>
    intro p hp
    simp only [updateEmbedding, List.map_cons, List.zip_cons_cons,
      List.mem_cons] at hp
    rcases hp with rfl | hp
    · refine ⟨fun h => ?_, fun h => ?_⟩
      · have hc : a.htsno = some code := h
        simp [hc]
      · have hc : ¬ (a.htsno = some code) := h
        simp [hc]
    · exact ih p (by simpa [updateEmbedding] using hp)

/-- Claim C10: when the embedding call for a batch key succeeds and the
update query does not fail, the resulting store has the same length, every
row whose `htsno` equals the key's code — whatever its indent or description
— carries the new embedding with all other fields unchanged, and every row
with a different code is untouched. -/
theorem successful_update_writes_all_matching_rows
    (embed : String → Option (List ℚ)) (updateFails : String → Bool)
    (s : JobState) (k : BatchKey) (v : List ℚ)
    (hemb : embed (textToEmbed k) = some v)
    (hup : updateFails k.htsno = false) :
    (processRow embed updateFails s k).store.length = s.store.length ∧
    ∀ p ∈ (processRow embed updateFails s k).store.zip s.store,
      (p.2.htsno = some k.htsno → p.1 = { p.2 with embedding := some v }) ∧
      (p.2.htsno ≠ some k.htsno → p.1 = p.2) := by
  have hst : (processRow embed updateFails s k).store =
      updateEmbedding s.store k.htsno v := by
    simp [processRow, hemb, hup]
  rw [hst]
  exact ⟨by simp [updateEmbedding], updateEmbedding_pointwise s.store k.htsno v⟩

/-- A store with two rows sharing the code "0101" (one at indent 3 with a
different description) and one row with another code. -/
def storeShared : List TariffRow :=
  [{ htsno := some "0101", descript := "Live animals", general := none
     special := none, indent := 0, embedding := none },
   { htsno := some "0101", descript := "Other live animals", general := none
     special := none, indent := 3, embedding := none },
   { htsno := some "0202", descript := "Meat", general := none
     special := none, indent := 0, embedding := none }]

/-- The job state at the start of a batch over `storeShared`. -/
def stateShared : JobState := initialJobState storeShared

/-- The batch key of the representative row for code "0101". -/
def keyShared : BatchKey :=
  { htsno := "0101", descript := "Live animals", indent := 0 }

theorem successful_update_writes_all_matching_rows_witness :
    (processRow (fun _ => some [1]) (fun _ => false) stateShared
        keyShared).store.length = stateShared.store.length ∧
    ∀ p ∈ (processRow (fun _ => some [1]) (fun _ => false) stateShared
        keyShared).store.zip stateShared.store,
      (p.2.htsno = some keyShared.htsno →
        p.1 = { p.2 with embedding := some [1] }) ∧
      (p.2.htsno ≠ some keyShared.htsno → p.1 = p.2) :=
  successful_update_writes_all_matching_rows (fun _ => some [1])
    (fun _ => false) stateShared keyShared [1] rfl rfl
